import Mathlib

/-!
Verification development for the `textpress` repository (files
`textpress/tpxa.py`, `textpress/database.py`).

The TPXA export writer (`textpress/tpxa.py`) and the mapper-extension layer
(`textpress/database.py`) are embedded shallowly below.  Pure structure is
translated directly from the source; the parts of the program that live in
modules not present in the repository snapshot (`textpress.utils`,
`textpress.models`, the SQLAlchemy/elementtree libraries) are modelled from
the spec and are marked as such in their doc comments.

Conventions used by the embedding:
* Python byte/unicode strings are Lean `String`s.
* `datetime` values are `Nat` timestamps (only their ordering and rendering
  matter to the exporter).
* Python dictionaries that the writer only ever extends are association
  lists kept in insertion order; dictionary lookup takes the latest binding,
  matching dict assignment semantics.
* elementtree `Element` objects are values of the inductive type `Node`;
  the destructive child-appending of the source is modelled by constructing
  the finished node.  Serialisation of a node to bytes (`dump_node`, which
  calls the external elementtree `_write`) is left symbolic: the generator
  produces a list of `Item`s, where an `Item.node` stands for the byte
  string obtained by serialising that node.
-/

namespace Textpress

/-! ## XML names and nodes -/

/-- A (possibly namespace-qualified) XML name.  `q ns n` models the
elementtree universal-name spelling that `_ElementHelper.__getattr__`
produces, and `plain s` models unqualified attribute names such as
`xml:base`, `type` or `href`. -/
inductive XName where
  | q (ns : String) (name : String)
  | plain (s : String)
deriving DecidableEq

/-- An elementtree element: tag, attributes, optional text, children. -/
inductive Node where
  | el (tag : XName) (attribs : List (XName × String)) (text : Option String)
       (children : List Node)

def Node.tag : Node → XName
  | .el t _ _ _ => t

def Node.attribs : Node → List (XName × String)
  | .el _ a _ _ => a

def Node.text : Node → Option String
  | .el _ _ t _ => t

def Node.children : Node → List Node
  | .el _ _ _ c => c

/-- Attribute lookup (`node.attrib[key]`), `none` when the key is absent. -/
def Node.attr (n : Node) (k : XName) : Option String :=
  (n.attribs.find? (fun kv => kv.1 = k)).map (·.2)

def ATOM_NS : String := "http://www.w3.org/2005/Atom"
def TEXTPRESS_NS : String := "http://textpress.pocoo.org/"

/-- `self.atom.tag`: the Atom universal name for `tag`. -/
def atom_name (tag : String) : XName := .q ATOM_NS tag

/-- `self.tp.tag`: the TextPress universal name for `tag`. -/
def tp_name (tag : String) : XName := .q TEXTPRESS_NS tag

/-! ## Entities

`textpress.models` is not part of the repository snapshot; the `Post`,
`User` and `Comment` shapes below are modelled from the spec (section 3:
conventional blog-domain rows) and from the attribute accesses performed by
`tpxa.py`.  Fields hold exactly the values the exporter reads. -/

structure User where
  user_id : Nat
  username : String
  role : Nat
  pw_hash : String
  /-- the raw `_display_name` attribute dumped by `_register_user`. -/
  display_name_stored : String
  /-- the computed `display_name` property read by `_dump_post`. -/
  display_name : String
  first_name : String
  last_name : String
  description : String
  email : String

structure Comment where
  comment_id : Nat
  author : String
  email : String
  www : String
  pub_date : Nat
  blocked : Bool
  is_pingback : Bool
  /-- `blocked_msg`; `none` models a Python-falsy value (`None`). -/
  blocked_msg : Option String
  parent_id : Option Nat
  raw_body : String
  parser_data : String

structure Post where
  post_id : Nat
  title : String
  uid : String
  slug : String
  last_update : Nat
  pub_date : Nat
  comments_enabled : Bool
  pings_enabled : Bool
  status : Nat
  /-- result of `post.body.render()`. -/
  body_rendered : String
  /-- result of `post.intro.render()` when `post.intro` is truthy,
  `none` when it is falsy (no summary element emitted). -/
  intro : Option String
  extra : String
  raw_body : String
  raw_intro : String
  parser_data : String
  author : User
  comments : List Comment

/-- The database state visible to the exporter: the stored posts and users.
Modelled from the spec: the SQLAlchemy query layer is external, so the two
queries issued by `Writer._generate` are modelled as reading these lists. -/
structure DB where
  posts : List Post
  users : List User

/-- The auxiliary payload dictionary pickled for a post by `_dump_post`. -/
structure PostAuxData where
  extra : String
  raw_body : String
  raw_intro : String
  parser_data : String

/-- The auxiliary payload dictionary pickled for a comment by `_dump_post`. -/
structure CommentAuxData where
  raw_body : String
  parser_data : String

/-- External functions the writer calls but whose code lives outside this
repository: `cPickle.dumps`, `str.encode(base64)`, `url_for`,
`build_tag_uri` and the application version string.  They are carried as
data so every theorem below holds for any implementation of them. -/
structure Ext where
  version : String
  url_for : Post → String
  pickle_post_data : PostAuxData → String
  pickle_comment_data : CommentAuxData → String
  base64 : String → String
  /-- `build_tag_uri(app, last_update, 'tpxa_export', 'full')`. -/
  build_tag_uri : Nat → String → String → String

/-- The configuration values the exporter reads from `self.app.cfg`. -/
structure Config where
  blog_title : String
  blog_tagline : String
  blog_url : String

/-! ## Helpers modelled from the spec

`textpress.utils` is not part of the repository snapshot. -/

/-- Modelled from the spec: `textpress.utils.escape` is not under `src/`;
following spec section 8 (all text and attribute content escaped) it is
modelled as standard XML escaping of the markup characters. -/
def escape (s : String) : String :=
  String.mk (s.toList.foldr (fun c acc =>
    if c = '&' then '&' :: 'a' :: 'm' :: 'p' :: ';' :: acc
    else if c = '<' then '&' :: 'l' :: 't' :: ';' :: acc
    else if c = '>' then '&' :: 'g' :: 't' :: ';' :: acc
    else if c = '"' then '&' :: 'q' :: 'u' :: 'o' :: 't' :: ';' :: acc
    else c :: acc) [])

/-- Modelled from the spec: `textpress.utils.format_iso8601` is not under
`src/`; it renders a timestamp as an ISO 8601 string.  Only injectivity on
the timestamp and absence of markup characters matter to the exporter, so
it is modelled as the decimal rendering of the timestamp. -/
def format_iso8601 (t : Nat) : String := toString t

/-- `'%x' % n`: lowercase hexadecimal rendering, as used for synthetic
dependency ids by `Writer.new_dependency`. -/
def hex_digit_char (d : Nat) : Char :=
  if d < 10 then Char.ofNat (48 + d) else Char.ofNat (87 + d)

/-- Inverse of `hex_digit_char` on hexadecimal digits. -/
def hex_val (c : Char) : Nat :=
  if 97 ≤ c.toNat then c.toNat - 87 else c.toNat - 48

/-- Base-16 digits of `n`, least significant first; `fuel`-guarded
structural recursion (any `fuel ≥ n` gives the base-16 digit list). -/
def to_hex_digits (fuel n : Nat) : List Nat :=
  match fuel, n with
  | _, 0 => []
  | 0, _ => []
  | f + 1, m + 1 => ((m + 1) % 16) :: to_hex_digits f ((m + 1) / 16)

def to_hex (n : Nat) : String :=
  String.mk (((to_hex_digits n n).map hex_digit_char).reverse)

/-! ## The hand-written XML pieces -/

/-- The body of the XML comment embedded in `XML_PREAMBLE` (everything
between the literal `<!--` and `-->`), transcribed verbatim from
`tpxa.py`. -/
def TPXA_COMMENT : String :=
  "\n\n    This is a TextPress eXtended Atom file.  It is a superset of the Atom\n    specification so every Atom-enabled application should be able to use at\n    least the Atom subset of the exported data.  You can use this file to\n    import your blog data in other blog software.\n\n    Developer Notice\n    ----------------\n\n    Because we saw horrible export formats (wordpress' wxr *cough*) we want\n    to avoid problems with this file right away.  If you are an application\n    developer that wants to use this file to import blog posts you have to\n    to the following:\n\n    -   parse the file with a proper XML parser.  And proper means shout\n        on syntax and encoding errors.\n    -   handle namespaces!  The prefixes might and will change, so use the\n        goddamn full qualified names with the namespaces when parsing.\n\n    User Notice\n    -----------\n\n    This file contains a dump of your blog but probably exluding some details\n    if plugins did not provide ways to export the information.  It's not\n    intended as blog backup nor as preferred solution to migrate from one\n    machine to another.  The main purpose of this file is being a portable\n    file that can be read by other blog software if you want to switch to\n    something else.\n\n"

/-- `XML_PREAMBLE % {...}`: the preamble template with the six placeholder
values substituted (the namespace placeholders are filled with the two
namespace constants, as in `_generate`). -/
def xml_preamble (version title subtitle id blog_url updated : String) : String :=
  "<?xml version=\"1.0\" encoding=\"utf-8\"?>\n<!--" ++ TPXA_COMMENT ++
  "-->\n<a:feed xmlns:a=\"" ++ ATOM_NS ++ "\" xmlns:tp=\"" ++ TEXTPRESS_NS ++
  "\"><a:title>" ++ title ++ "</a:title><a:subtitle>" ++ subtitle ++
  "</a:subtitle><a:id>" ++ id ++
  "</a:id><a:generator a:uri=\"http://textpress.pocoo.org/\" a:version=\"" ++
  version ++ "\">TextPress TPXA Export</a:generator><a:link href=\"" ++
  blog_url ++ "\"/><a:updated>" ++ updated ++ "</a:updated>"

def XML_EPILOG : String := "</a:feed>"

/-- Whether a character sequence contains two consecutive hyphens.  The XML
1.0 `Comment` production forbids the string `--` inside a comment, so any
comment body for which this holds makes the document ill-formed. -/
def contains_double_dash : List Char → Bool
  | c1 :: c2 :: rest =>
      (c1 == '-' && c2 == '-') || contains_double_dash (c2 :: rest)
  | _ => false

/-! ## The writer state and its operations -/

/-- The mutable state of a `Writer`: the `_dependencies` mapping (synthetic
id to buffered node, in insertion order) and the `users` mapping (user id to
that user's dependency node). -/
structure WriterState where
  dependencies : List (String × Node)
  users : List (Nat × Node)

def WriterState.empty : WriterState := ⟨[], []⟩

/-- `Writer.new_dependency` on the `_dependencies` mapping: synthesise the id
`'%x' % (len(self._dependencies) + 1)`, create a node carrying it in its
`tp:dependency` attribute, store the node under the id. -/
def new_dependency (deps : List (String × Node)) (tag : XName) :
    Node × List (String × Node) :=
  let id := to_hex (deps.length + 1)
  let node := Node.el tag [(tp_name "dependency", id)] none []
  (node, deps ++ [(id, node)])

/-- Shorthand for the childless text elements built through
`_ElementHelper.__call__` with only a `text` keyword. -/
def text_el (tag : XName) (text : String) : Node :=
  Node.el tag [] (some text) []

/-- The finished `tp:user` dependency node built by `_register_user` for one
user (the node returned by `new_dependency` after the seven child elements
have been appended to it). -/
def user_node (ext : Ext) (id : String) (u : User) : Node :=
  Node.el (tp_name "user") [(tp_name "dependency", id)] none
    [ text_el (tp_name "username") u.username,
      text_el (tp_name "role") (toString u.role),
      text_el (tp_name "pw_hash") (ext.base64 u.pw_hash),
      text_el (tp_name "display_name") u.display_name_stored,
      text_el (tp_name "first_name") u.first_name,
      text_el (tp_name "last_name") u.last_name,
      text_el (tp_name "description") u.description ]

/-- `Writer._register_user`: create a dependency node through
`new_dependency`, fill in the user's fields (the stored node is the same
object, so the mapping ends up holding the finished node), and record the
node in the `users` mapping. -/
def register_user (ext : Ext) (st : WriterState) (u : User) : WriterState :=
  let id := to_hex (st.dependencies.length + 1)
  let node := user_node ext id u
  { dependencies := st.dependencies ++ [(id, node)],
    users := st.users ++ [(u.user_id, node)] }

/-- Python dict lookup on an insertion-ordered association list: the latest
binding for the key wins (`d[k] = v` assignment semantics). -/
def dict_lookup (m : List (Nat × Node)) (k : Nat) : Option Node :=
  match m with
  | [] => none
  | (k', v) :: rest =>
      match dict_lookup rest k with
      | some r => some r
      | none => if k' = k then some v else none

/-- The `tp:comment` element built for one comment of a post. -/
def comment_node (c : Comment) : Node :=
  Node.el (tp_name "comment") [] none
    [ text_el (tp_name "id") (toString c.comment_id),
      Node.el (tp_name "author") [] none
        [ text_el (tp_name "name") c.author,
          text_el (tp_name "email") c.email,
          text_el (tp_name "uri") c.www ],
      text_el (tp_name "published") (format_iso8601 c.pub_date),
      text_el (tp_name "blocked") (if c.blocked then "yes" else "no"),
      text_el (tp_name "is_pingback") (if c.is_pingback then "yes" else "no"),
      text_el (tp_name "blocked_msg") (c.blocked_msg.getD ""),
      text_el (tp_name "parent")
        (match c.parent_id with
         | some p => toString p
         | none => "") ]

/-- The `tp:data` payload element built for one comment.  Note that the
source attaches it to the entry (`parent=entry`), not to the comment
element. -/
def comment_data_node (ext : Ext) (c : Comment) : Node :=
  text_el (tp_name "data")
    (ext.base64 (ext.pickle_comment_data ⟨c.raw_body, c.parser_data⟩))

/-- The `tp:data` payload element built for the post itself. -/
def post_data_node (ext : Ext) (p : Post) : Node :=
  text_el (tp_name "data")
    (ext.base64 (ext.pickle_post_data
      ⟨p.extra, p.raw_body, p.raw_intro, p.parser_data⟩))

/-- The finished `a:entry` element built by `_dump_post`, given the resolved
dependency id of the post's author.  Children appear in the order the source
appends them; each comment contributes its `tp:comment` element immediately
followed by its `tp:data` element (both appended to the entry). -/
def entry_node (ext : Ext) (author_dep_id : String) (p : Post) : Node :=
  Node.el (atom_name "entry") [(.plain "xml:base", ext.url_for p)] none
    (([ Node.el (atom_name "title") [(.plain "type", "text")] (some p.title) [],
        text_el (atom_name "id") p.uid,
        text_el (atom_name "updated") (format_iso8601 p.last_update),
        text_el (atom_name "published") (format_iso8601 p.pub_date),
        Node.el (atom_name "link") [(.plain "href", ext.url_for p)] none [],
        Node.el (atom_name "author") [(tp_name "dependency", author_dep_id)] none
          [ text_el (atom_name "name") p.author.display_name,
            text_el (atom_name "email") p.author.email ],
        text_el (tp_name "slug") p.slug,
        text_el (tp_name "id") (toString p.post_id),
        text_el (tp_name "comments_enabled")
          (if p.comments_enabled then "yes" else "no"),
        text_el (tp_name "pings_enabled")
          (if p.pings_enabled then "yes" else "no"),
        text_el (tp_name "status") (toString p.status),
        Node.el (atom_name "content") [(.plain "type", "html")]
          (some p.body_rendered) [] ] ++
      (match p.intro with
       | some i =>
           [Node.el (atom_name "summary") [(.plain "type", "html")] (some i) []]
       | none => [])) ++
      post_data_node ext p ::
        p.comments.foldr
          (fun c acc => comment_node c :: comment_data_node ext c :: acc) [])

/-- `Writer._dump_post`: look up the author's dependency node in the `users`
mapping and read its `tp:dependency` attribute (a `KeyError` on a missing
author is modelled as `none`), then build the entry element. -/
def dump_post (ext : Ext) (st : WriterState) (p : Post) : Option Node := do
  let author_node ← dict_lookup st.users p.author.user_id
  let dep_id ← author_node.attr (tp_name "dependency")
  pure (entry_node ext dep_id p)

/-! ## The generator -/

/-- One chunk yielded by `Writer._generate`: either a hand-written byte
string or a node to be serialised by `dump_node`. -/
inductive Item where
  | raw (s : String)
  | node (n : Node)

/-- Modelled from the spec: `Post.objects.order_by(Post.last_update.desc())`
goes through the external SQLAlchemy query layer; it is modelled as all
stored posts sorted by `last_update` descending. -/
def post_query (db : DB) : List Post :=
  List.insertionSort (fun a b => b.last_update ≤ a.last_update) db.posts

/-- The writer state after `_generate` has registered every user returned by
`User.objects.all()` as a dependency. -/
def register_state (ext : Ext) (db : DB) : WriterState :=
  db.users.foldl (register_user ext) WriterState.empty

/-- The feed's `updated` timestamp: the first post's `last_update`, or the
time of the export when there are no posts. -/
def feed_last_update (db : DB) (now : Nat) : Nat :=
  match post_query db with
  | [] => now
  | p :: _ => p.last_update

/-- The substituted preamble chunk yielded first by `_generate`. -/
def preamble_string (ext : Ext) (cfg : Config) (db : DB) (now : Nat) : String :=
  xml_preamble (escape ext.version) (escape cfg.blog_title)
    (escape cfg.blog_tagline)
    (escape (ext.build_tag_uri (feed_last_update db now) "tpxa_export" "full"))
    (escape cfg.blog_url)
    (format_iso8601 (feed_last_update db now))

/-- The dependency-block chunks: nothing when the `_dependencies` mapping is
empty, otherwise the hand-written open tag, the buffered nodes, and the
hand-written close tag. -/
def dep_block_items (deps : List (String × Node)) : List Item :=
  if deps.isEmpty then []
  else Item.raw "<tp:dependencies>" ::
    deps.map (fun kv => Item.node kv.2) ++ [Item.raw "</tp:dependencies>"]

/-- `Writer._generate`: pull the first post off the query to learn the feed's
`updated` timestamp (falling back to the export time when the query is
empty) and push it back (`chain`), yield the substituted preamble, register
every user as a dependency, yield one serialised entry per post, yield the
dependency block when any dependencies were buffered, and yield the epilog.
A `KeyError` while dumping a post (author absent from the `users` mapping)
aborts the generator and is modelled as `none`. -/
def generate (ext : Ext) (cfg : Config) (db : DB) (now : Nat) :
    Option (List Item) := do
  let posts := post_query db
  let posts :=
    match posts with
    | [] => []
    | first_post :: rest => first_post :: rest
  let st := register_state ext db
  let entries ← posts.mapM (dump_post ext st)
  pure (Item.raw (preamble_string ext cfg db now) ::
    entries.map Item.node ++ dep_block_items st.dependencies ++
    [Item.raw XML_EPILOG])

/-! ## Observations on the generated chunk list -/

/-- Whether a chunk is a serialised Atom `entry` element. -/
def Item.entry_item : Item → Bool
  | .node n => n.tag == atom_name "entry"
  | .raw _ => false

/-- Whether a chunk is a serialised `tp:user` dependency node. -/
def Item.dep_user_item : Item → Bool
  | .node n => n.tag == tp_name "user"
  | .raw _ => false

/-- The user ids referenced by some exported post as its author. -/
def referenced_author_ids (db : DB) : List Nat :=
  db.posts.map (fun p => p.author.user_id)

/-- The `_dependencies` entries produced by registering the users `us` when
the mapping already holds `k` entries: the `i`-th user gets the synthetic id
`to_hex (k + i + 1)`. -/
def user_dep_entries (ext : Ext) (k : Nat) : List User → List (String × Node)
  | [] => []
  | u :: us =>
      (to_hex (k + 1), user_node ext (to_hex (k + 1)) u) ::
        user_dep_entries ext (k + 1) us

/-- The `users` entries produced by registering the users `us` when the
`_dependencies` mapping already holds `k` entries. -/
def user_map_entries (ext : Ext) (k : Nat) : List User → List (Nat × Node)
  | [] => []
  | u :: us =>
      (u.user_id, user_node ext (to_hex (k + 1)) u) ::
        user_map_entries ext (k + 1) us

/-- The `_dependencies` mapping states that can actually arise in a run of
the writer: the mapping starts empty and is only ever extended by
`new_dependency` (directly, or through `_register_user`, which stores the
node created by `new_dependency` and then fills in its children), so each
extension appends one entry under the synthetic id
`to_hex (size + 1)`. -/
inductive ReachableDeps : List (String × Node) → Prop where
  | nil : ReachableDeps []
  | step (d : List (String × Node)) (node : Node) (h : ReachableDeps d) :
      ReachableDeps (d ++ [(to_hex (d.length + 1), node)])

/-! ## Concrete sample data (used by witnesses and counterexamples) -/

/-- A concrete instantiation of the external functions. -/
def ext0 : Ext where
  version := "0.1"
  url_for := fun p => "http://blog.example/" ++ p.slug
  pickle_post_data := fun d => d.raw_body
  pickle_comment_data := fun d => d.raw_body
  base64 := fun s => s ++ "="
  build_tag_uri := fun t kind slug => "tag:" ++ toString t ++ kind ++ slug

def cfg0 : Config where
  blog_title := "My Blog"
  blog_tagline := "tagline"
  blog_url := "http://blog.example/"

def user0 : User where
  user_id := 1
  username := "admin"
  role := 4
  pw_hash := "hash"
  display_name_stored := "%(username)s"
  display_name := "admin"
  first_name := "Ada"
  last_name := "Admin"
  description := "the admin"
  email := "admin@example.com"

def post0 : Post where
  post_id := 7
  title := "Hello"
  uid := "uid-7"
  slug := "hello"
  last_update := 20
  pub_date := 10
  comments_enabled := true
  pings_enabled := false
  status := 1
  body_rendered := "<p>hi</p>"
  intro := none
  extra := "x"
  raw_body := "hi"
  raw_intro := ""
  parser_data := "pd"
  author := user0
  comments := []

/-- A second post by the same author, updated earlier than `post0`. -/
def post1 : Post :=
  { post0 with post_id := 8, slug := "second", uid := "uid-8",
               last_update := 5, pub_date := 4 }

/-- A database with two posts and one user, satisfying referential
integrity. -/
def db0 : DB := ⟨[post1, post0], [user0]⟩

/-- A database with one user and no posts: the user is referenced by no
exported post. -/
def db_unref : DB := ⟨[], [user0]⟩

/-- Referential integrity of the stored rows (spec section 3: standard
referential integrity): every post's author is a stored user. -/
def ref_integrity (db : DB) : Prop :=
  ∀ p ∈ db.posts, p.author.user_id ∈ db.users.map (·.user_id)

instance : IsTotal Post (fun a b => b.last_update ≤ a.last_update) :=
  ⟨fun a b => Nat.le_total b.last_update a.last_update⟩

instance : IsTrans Post (fun a b => b.last_update ≤ a.last_update) :=
  ⟨fun _ _ _ hab hbc => le_trans hbc hab⟩

end Textpress

namespace TextpressDb

/-!
## `textpress/database.py`: the manager mapper-extension

`ManagerExtension.instrument_class` inspects the mapped class's own
`__dict__` for `DatabaseManager` instances, installs a default manager
named `objects` when none is present (raising `RuntimeError` when the name
is taken), records the managers on `_tp_managers` and binds each one
(`DatabaseManager.bind` raises `RuntimeError` when the manager is already
bound to a model).  `init_instance` saves freshly constructed instances
into the session unless `_tp_no_save` is passed; `init_failed` expunges the
instance from its session.
-/

/-- A `DatabaseManager`: its `model` field is `none` while unbound and
holds the model's name once `bind` has run. -/
structure DatabaseManager where
  model : Option String
deriving DecidableEq

/-- A class attribute value, as far as `instrument_class` can tell them
apart: a `DatabaseManager` instance or anything else. -/
inductive ClassAttr where
  | manager (m : DatabaseManager)
  | plain_attr
deriving DecidableEq

/-- The shape of a mapped class that `instrument_class` looks at: its own
`__dict__` and the names reachable through inheritance (`hasattr` sees
both). -/
structure PyClass where
  name : String
  own_dict : List (String × ClassAttr)
  inherited : List String
deriving DecidableEq

/-- The two `RuntimeError`s this layer can raise during model setup. -/
inductive SetupError where
  | attr_collision
  | already_bound
deriving DecidableEq

/-- The `DatabaseManager` instances found in the class's own `__dict__`. -/
def class_managers (c : PyClass) : List DatabaseManager :=
  c.own_dict.filterMap (fun kv =>
    match kv.2 with
    | .manager m => some m
    | .plain_attr => none)

/-- `hasattr(class_, 'objects')`: true when the class's own `__dict__` or
an inherited attribute provides the name. -/
def hasattr_objects (c : PyClass) : Bool :=
  (c.own_dict.lookup "objects").isSome || c.inherited.contains "objects"

/-- `DatabaseManager.bind`: raises when the manager is already bound,
otherwise records the model. -/
def bind_manager (cls : String) (m : DatabaseManager) :
    Except SetupError DatabaseManager :=
  match m.model with
  | some _ => .error .already_bound
  | none => .ok ⟨some cls⟩

/-- The outcome of `instrument_class`: the class's own `__dict__` after
instrumentation and the `_tp_managers` list set on the class. -/
structure Instrumented where
  own_dict : List (String × ClassAttr)
  tp_managers : List DatabaseManager
deriving DecidableEq

/-- The `for manager in managers: manager.bind(class_)` loop: bind each
manager in turn, propagating the first `RuntimeError`. -/
def bind_all (cls : String) : List DatabaseManager →
    Except SetupError (List DatabaseManager)
  | [] => .ok []
  | m :: ms =>
      match bind_manager cls m with
      | .error e => .error e
      | .ok b =>
          match bind_all cls ms with
          | .error e => .error e
          | .ok bs => .ok (b :: bs)

/-- `ManagerExtension.instrument_class`: collect the managers from the
class's own `__dict__`; if none was found, either raise on a name collision
with `objects` or install a fresh default manager under that name; then set
`_tp_managers` and bind every manager to the class. -/
def instrument_class (c : PyClass) : Except SetupError Instrumented :=
  let managers := class_managers c
  if managers.isEmpty then
    if hasattr_objects c then .error .attr_collision
    else
      -- class_.objects = mgr = DatabaseManager(); the bind loop then binds
      -- the single fresh manager, which always succeeds.
      .ok { own_dict := c.own_dict ++ [("objects", .manager ⟨some c.name⟩)],
            tp_managers := [⟨some c.name⟩] }
  else
    match bind_all c.name managers with
    | .error e => .error e
    | .ok bound =>
        .ok { own_dict := c.own_dict.map (fun kv =>
                match kv.2 with
                | .manager _ => (kv.1, .manager ⟨some c.name⟩)
                | .plain_attr => kv),
              tp_managers := bound }

/-- Second definition for the refinement comparison, written from the
amended claim's words: if the class's own dict contains at least one
`DatabaseManager`, no default manager is created (the dict keeps exactly
its own names, with the managers now bound); otherwise, if the class
already has an attribute named `objects`, the attribute-collision
`RuntimeError` is raised; otherwise a default bound manager is installed as
`objects`.  The errors raised during setup are the attribute-collision
error and the already-bound error, the latter exactly when some manager in
the class's own dict is already bound to a model. -/
def instrument_spec (c : PyClass) : Except SetupError Instrumented :=
  if (class_managers c).length ≥ 1 then
    if (class_managers c).any (fun m => m.model.isSome) then .error .already_bound
    else .ok { own_dict := c.own_dict.map (fun kv =>
                 match kv.2 with
                 | .manager _ => (kv.1, .manager ⟨some c.name⟩)
                 | .plain_attr => kv),
               tp_managers := (class_managers c).map (fun _ => ⟨some c.name⟩) }
  else if hasattr_objects c then .error .attr_collision
  else .ok { own_dict := c.own_dict ++ [("objects", .manager ⟨some c.name⟩)],
             tp_managers := [⟨some c.name⟩] }

/-- A class whose own dict holds a manager that is already bound (for
example because `db.mapper` was run twice over the same class): the bind
loop raises the already-bound `RuntimeError`. -/
def class_rebound : PyClass :=
  ⟨"Post", [("objects", .manager ⟨some "Post"⟩)], []⟩

/-! ## Sessions: `init_instance` and `init_failed`

Sessions are external SQLAlchemy objects; only the operations the extension
performs on them are modelled: `_save_impl` registers a pending instance,
`object_session` finds the session an instance is registered in, `expunge`
removes it.  Instances are identified by `Nat`.  Two sessions are in play:
the thread-local registry session and the session optionally passed as the
`_sa_session` keyword. -/

structure Sessions where
  /-- the active (thread-local registry) session's pending instances. -/
  active : List Nat
  /-- the pending instances of the session passed as `_sa_session`. -/
  passed : List Nat
deriving DecidableEq

/-- `session._save_impl(instance)`. -/
def save_impl (sess : List Nat) (inst : Nat) : List Nat := sess ++ [inst]

/-- `ManagerExtension.init_instance`: pick the `_sa_session` keyword when
given, else the active registry session; unless `_tp_no_save` is truthy,
save the instance into the chosen session. -/
def init_instance (w : Sessions) (use_sa_session : Bool) (tp_no_save : Bool)
    (inst : Nat) : Sessions :=
  if tp_no_save then w
  else if use_sa_session then { w with passed := save_impl w.passed inst }
  else { w with active := save_impl w.active inst }

/-- `orm.object_session(instance).expunge(instance)` from
`ManagerExtension.init_failed`: find the session holding the instance and
remove it; `none` models the `AttributeError` raised when the instance is
in no session (`object_session` returns `None`). -/
def init_failed (w : Sessions) (inst : Nat) : Option Sessions :=
  if w.active.contains inst then some { w with active := w.active.erase inst }
  else if w.passed.contains inst then some { w with passed := w.passed.erase inst }
  else none

end TextpressDb

namespace Textpress

/-! ## Lemmas about the hexadecimal id rendering -/

theorem to_hex_digits_eq_digits (fuel n : Nat) (h : n ≤ fuel) :
    to_hex_digits fuel n = Nat.digits 16 n := by
  induction fuel generalizing n with
  | zero =>
    have hn : n = 0 := Nat.le_zero.mp h
    subst hn
    show ([] : List Nat) = Nat.digits 16 0
    exact (Nat.digits_zero 16).symm
  | succ f ih =>
    match n with
    | 0 =>
      show ([] : List Nat) = Nat.digits 16 0
      exact (Nat.digits_zero 16).symm
    | m + 1 =>
      have hstep : to_hex_digits (f + 1) (m + 1) =
          ((m + 1) % 16) :: to_hex_digits f ((m + 1) / 16) := rfl
      rw [hstep, Nat.digits_def' (by norm_num : 1 < 16) (Nat.succ_pos m)]
      congr 1
      refine ih _ ?_
      have hlt : (m + 1) / 16 < m + 1 := Nat.div_lt_self (Nat.succ_pos m) (by norm_num)
      omega

theorem hex_val_hex_digit_char {d : Nat} (h : d < 16) :
    hex_val (hex_digit_char d) = d := by
  interval_cases d <;> decide

theorem map_hex_val_digits (l : List Nat) (hl : ∀ d ∈ l, d < 16) :
    (l.map hex_digit_char).map hex_val = l := by
  induction l with
  | nil => rfl
  | cons d ds ih =>
    simp only [List.map_cons, List.cons.injEq]
    exact ⟨hex_val_hex_digit_char (hl d (List.mem_cons_self d ds)),
           ih (fun x hx => hl x (List.mem_cons_of_mem d hx))⟩

theorem to_hex_injective : Function.Injective to_hex := by
  intro m n h
  simp only [to_hex] at h
  injection h with hdata
  have hrev := List.reverse_injective hdata
  rw [to_hex_digits_eq_digits m m le_rfl, to_hex_digits_eq_digits n n le_rfl] at hrev
  have hdig : Nat.digits 16 m = Nat.digits 16 n := by
    have h1 := congrArg (List.map hex_val) hrev
    rwa [map_hex_val_digits _ (fun d hd => Nat.digits_lt_base (by norm_num) hd),
         map_hex_val_digits _ (fun d hd => Nat.digits_lt_base (by norm_num) hd)] at h1
  calc m = Nat.ofDigits 16 (Nat.digits 16 m) := (Nat.ofDigits_digits 16 m).symm
    _ = Nat.ofDigits 16 (Nat.digits 16 n) := by rw [hdig]
    _ = n := Nat.ofDigits_digits 16 n

end Textpress

namespace Textpress

/-! ## Characterising the user-registration fold -/

theorem foldl_register_user (ext : Ext) (us : List User) (st : WriterState) :
    us.foldl (register_user ext) st =
      ⟨st.dependencies ++ user_dep_entries ext st.dependencies.length us,
       st.users ++ user_map_entries ext st.dependencies.length us⟩ := by
  induction us generalizing st with
  | nil => simp [user_dep_entries, user_map_entries]
  | cons u us ih =>
    rw [List.foldl_cons, ih]
    cases st with
    | mk deps users =>
      simp [register_user, user_dep_entries, user_map_entries, List.append_assoc]

theorem register_state_eq (ext : Ext) (db : DB) :
    register_state ext db =
      ⟨user_dep_entries ext 0 db.users, user_map_entries ext 0 db.users⟩ := by
  simpa [WriterState.empty] using
    foldl_register_user ext db.users WriterState.empty

theorem user_dep_entries_length (ext : Ext) (us : List User) (k : Nat) :
    (user_dep_entries ext k us).length = us.length := by
  induction us generalizing k with
  | nil => rfl
  | cons u us ih => simp [user_dep_entries, ih]

theorem user_dep_entries_keys (ext : Ext) (us : List User) (k : Nat) :
    (user_dep_entries ext k us).map Prod.fst =
      (List.range' (k + 1) us.length).map to_hex := by
  induction us generalizing k with
  | nil => rfl
  | cons u us ih =>
    simp only [user_dep_entries, List.map_cons, List.length_cons, List.range'_succ]
    rw [ih]

theorem user_dep_entries_tag (ext : Ext) (us : List User) (k : Nat) :
    ∀ kv ∈ user_dep_entries ext k us, (kv.2).tag = tp_name "user" := by
  induction us generalizing k with
  | nil => intro kv hkv; cases hkv
  | cons u us ih =>
    intro kv hkv
    rcases List.mem_cons.mp hkv with h | h
    · subst h; rfl
    · exact ih (k + 1) kv h

theorem user_dep_entries_forall2 (ext : Ext) (us : List User) (k : Nat) :
    List.Forall₂ (fun (kv : String × Node) u => kv.2 = user_node ext kv.1 u)
      (user_dep_entries ext k us) us := by
  induction us generalizing k with
  | nil => exact .nil
  | cons u us ih => exact .cons rfl (ih (k + 1))

/-! ## Lookup lemmas for the `users` mapping -/

theorem dict_lookup_user_map_not_mem (ext : Ext) (us : List User) (k uid : Nat)
    (h : uid ∉ us.map (·.user_id)) :
    dict_lookup (user_map_entries ext k us) uid = none := by
  induction us generalizing k with
  | nil => rfl
  | cons u us ih =>
    have h1 : uid ∉ us.map (·.user_id) := fun hm => h (by simp [List.mem_cons, hm])
    have h2 : u.user_id ≠ uid := fun he => h (by simp [he])
    simp [user_map_entries, dict_lookup, ih _ h1, h2]

theorem dict_lookup_user_map_mem (ext : Ext) (us : List User) (k uid : Nat)
    (h : uid ∈ us.map (·.user_id)) :
    ∃ id u, u ∈ us ∧ u.user_id = uid ∧
      dict_lookup (user_map_entries ext k us) uid =
        some (user_node ext id u) := by
  induction us generalizing k with
  | nil => simp at h
  | cons u us ih =>
    by_cases hmem : uid ∈ us.map (·.user_id)
    · obtain ⟨id, v, hv, hvid, hlk⟩ := ih (k + 1) hmem
      exact ⟨id, v, List.mem_cons_of_mem u hv, hvid,
             by simp [user_map_entries, dict_lookup, hlk]⟩
    · have huid : u.user_id = uid := by
        rcases List.mem_map.mp h with ⟨v, hv, hvid⟩
        rcases List.mem_cons.mp hv with rfl | hv'
        · exact hvid
        · exact absurd (List.mem_map.mpr ⟨v, hv', hvid⟩) hmem
      refine ⟨to_hex (k + 1), u, List.mem_cons_self u us, huid, ?_⟩
      simp [user_map_entries, dict_lookup,
            dict_lookup_user_map_not_mem ext us (k + 1) uid hmem, huid]

theorem user_node_attr_dependency (ext : Ext) (id : String) (u : User) :
    (user_node ext id u).attr (tp_name "dependency") = some id := by
  simp [user_node, Node.attr, Node.attribs, List.find?]

/-! ## `dump_post` lemmas -/

theorem dump_post_register_state (ext : Ext) (db : DB) (p : Post)
    (h : p.author.user_id ∈ db.users.map (·.user_id)) :
    ∃ id, dump_post ext (register_state ext db) p =
      some (entry_node ext id p) := by
  obtain ⟨id, u, hu, huid, hlk⟩ := dict_lookup_user_map_mem ext db.users 0 _ h
  refine ⟨id, ?_⟩
  simp [dump_post, register_state_eq, hlk, user_node_attr_dependency]

theorem dump_post_entry_tag (ext : Ext) (st : WriterState) (p : Post) (e : Node)
    (h : dump_post ext st p = some e) : e.tag = atom_name "entry" := by
  cases hl : dict_lookup st.users p.author.user_id with
  | none => simp [dump_post, hl] at h
  | some an =>
    cases ha : an.attr (tp_name "dependency") with
    | none => simp [dump_post, hl, ha] at h
    | some id =>
      simp [dump_post, hl, ha] at h
      subst h
      rfl

theorem dump_post_shape (ext : Ext) (st : WriterState) (p : Post) (e : Node)
    (h : dump_post ext st p = some e) : ∃ id, e = entry_node ext id p := by
  cases hl : dict_lookup st.users p.author.user_id with
  | none => simp [dump_post, hl] at h
  | some an =>
    cases ha : an.attr (tp_name "dependency") with
    | none => simp [dump_post, hl, ha] at h
    | some id =>
      simp [dump_post, hl, ha] at h
      exact ⟨id, h.symm⟩

/-! ## A `mapM` helper -/

theorem mapM_option_some {α β : Type} (f : α → Option β) (l : List α)
    (h : ∀ x ∈ l, (f x).isSome) :
    ∃ ys, l.mapM f = some ys ∧
      List.Forall₂ (fun x y => f x = some y) l ys := by
  induction l with
  | nil => exact ⟨[], rfl, .nil⟩
  | cons x xs ih =>
    obtain ⟨y, hy⟩ := Option.isSome_iff_exists.mp (h x (List.mem_cons_self x xs))
    obtain ⟨ys, hys, hfa⟩ := ih (fun z hz => h z (List.mem_cons_of_mem x hz))
    exact ⟨y :: ys, by rw [List.mapM_cons, hy, hys]; rfl, .cons hy hfa⟩

end Textpress

namespace Textpress

/-! ## Structure of the generated chunk list -/

theorem generate_eq_of_mapM (ext : Ext) (cfg : Config) (db : DB) (now : Nat)
    (entries : List Node)
    (hm : (post_query db).mapM (dump_post ext (register_state ext db)) =
      some entries) :
    generate ext cfg db now = some
      (Item.raw (preamble_string ext cfg db now) ::
        entries.map Item.node ++
        dep_block_items (register_state ext db).dependencies ++
        [Item.raw XML_EPILOG]) := by
  unfold generate
  cases hq : post_query db with
  | nil =>
    rw [hq] at hm
    have hm' : List.mapM.loop (dump_post ext (register_state ext db)) [] [] =
        some entries := hm
    simp only [List.mapM_nil, Option.pure_def, Option.some.injEq] at hm
    subst hm
    simp [hm']
  | cons p ps =>
    rw [hq] at hm
    have hm' : List.mapM.loop (dump_post ext (register_state ext db)) (p :: ps)
        [] = some entries := hm
    simp [hm']

theorem generate_some_inv (ext : Ext) (cfg : Config) (db : DB) (now : Nat)
    (items : List Item) (h : generate ext cfg db now = some items) :
    ∃ entries,
      (post_query db).mapM (dump_post ext (register_state ext db)) =
        some entries ∧
      items = Item.raw (preamble_string ext cfg db now) ::
        entries.map Item.node ++
        dep_block_items (register_state ext db).dependencies ++
        [Item.raw XML_EPILOG] := by
  unfold generate at h
  cases hq : post_query db with
  | nil =>
    rw [hq] at h
    dsimp only at h
    have hloop : List.mapM.loop (dump_post ext (register_state ext db)) [] []
        = some [] := rfl
    rw [show (List.mapM (dump_post ext (register_state ext db)) [] :
          Option (List Node)) = some [] from hloop] at h
    simp only [Option.pure_def, Option.bind_eq_bind, Option.some_bind,
               Option.some.injEq, List.map_nil, List.nil_append] at h
    exact ⟨[], hloop, by simp [← h]⟩
  | cons p ps =>
    rw [hq] at h
    dsimp only at h
    cases hm : (p :: ps).mapM (dump_post ext (register_state ext db)) with
    | none =>
      rw [show (List.mapM (dump_post ext (register_state ext db)) (p :: ps) :
            Option (List Node)) = none from hm] at h
      simp at h
    | some entries =>
      rw [show (List.mapM (dump_post ext (register_state ext db)) (p :: ps) :
            Option (List Node)) = some entries from hm] at h
      simp only [Option.pure_def, Option.bind_eq_bind, Option.some_bind,
                 Option.some.injEq] at h
      exact ⟨entries, rfl, by simp [← h]⟩

end Textpress


namespace Textpress

/-! ## Filtering the chunk list by element kind -/

theorem filter_cons_false (p : Item → Bool) (a : Item) (l : List Item)
    (h : p a = false) : (a :: l).filter p = l.filter p := by
  simp [List.filter_cons, h]

theorem filter_map_all_false {α : Type} (p : Item → Bool) (f : α → Item)
    (l : List α) (h : ∀ x ∈ l, p (f x) = false) :
    (l.map f).filter p = [] := by
  induction l with
  | nil => rfl
  | cons x xs ih =>
    rw [List.map_cons, filter_cons_false p _ _ (h x (List.mem_cons_self x xs))]
    exact ih (fun z hz => h z (List.mem_cons_of_mem x hz))

theorem filter_map_all_true {α : Type} (p : Item → Bool) (f : α → Item)
    (l : List α) (h : ∀ x ∈ l, p (f x) = true) :
    (l.map f).filter p = l.map f := by
  induction l with
  | nil => rfl
  | cons x xs ih =>
    rw [List.map_cons, List.filter_cons_of_pos (h x (List.mem_cons_self x xs))]
    rw [ih (fun z hz => h z (List.mem_cons_of_mem x hz))]

theorem entry_item_node (n : Node) :
    Item.entry_item (Item.node n) = (n.tag == atom_name "entry") := rfl

theorem dep_user_item_node (n : Node) :
    Item.dep_user_item (Item.node n) = (n.tag == tp_name "user") := rfl

theorem filter_entry_of_generate (pre ep : String) (entries : List Node)
    (deps : List (String × Node))
    (hent : ∀ e ∈ entries, e.tag = atom_name "entry")
    (hdep : ∀ kv ∈ deps, kv.2.tag = tp_name "user") :
    (Item.raw pre :: entries.map Item.node ++ dep_block_items deps ++
        [Item.raw ep]).filter Item.entry_item = entries.map Item.node := by
  have hblock : (dep_block_items deps).filter Item.entry_item = [] := by
    unfold dep_block_items
    split
    · rfl
    · show (deps.map (fun kv => Item.node kv.2) ++
          [Item.raw "</tp:dependencies>"]).filter Item.entry_item = []
      rw [List.filter_append,
          filter_map_all_false _ _ _ (fun kv hkv => by
            rw [entry_item_node, hdep kv hkv]; decide)]
      rfl
  show (entries.map Item.node ++ dep_block_items deps ++
      [Item.raw ep]).filter Item.entry_item = entries.map Item.node
  rw [List.filter_append, List.filter_append, hblock,
      filter_map_all_true _ _ _ (fun e he => by
        rw [entry_item_node, hent e he]; decide)]
  simp [Item.entry_item]

theorem filter_dep_user_of_generate (pre ep : String) (entries : List Node)
    (deps : List (String × Node))
    (hent : ∀ e ∈ entries, e.tag = atom_name "entry")
    (hdep : ∀ kv ∈ deps, kv.2.tag = tp_name "user") :
    (Item.raw pre :: entries.map Item.node ++ dep_block_items deps ++
        [Item.raw ep]).filter Item.dep_user_item =
      deps.map (fun kv => Item.node kv.2) := by
  have hblock : (dep_block_items deps).filter Item.dep_user_item =
      deps.map (fun kv => Item.node kv.2) := by
    unfold dep_block_items
    split
    · rename_i hnil
      rw [List.isEmpty_iff.mp hnil]
      rfl
    · show (deps.map (fun kv => Item.node kv.2) ++
          [Item.raw "</tp:dependencies>"]).filter Item.dep_user_item =
        deps.map (fun kv => Item.node kv.2)
      rw [List.filter_append,
          filter_map_all_true _ _ _ (fun kv hkv => by
            rw [dep_user_item_node, hdep kv hkv]; decide)]
      simp [Item.dep_user_item]
  show (entries.map Item.node ++ dep_block_items deps ++
      [Item.raw ep]).filter Item.dep_user_item =
    deps.map (fun kv => Item.node kv.2)
  rw [List.filter_append, List.filter_append, hblock,
      filter_map_all_false _ _ _ (fun e he => by
        rw [dep_user_item_node, hent e he]; decide)]
  simp [Item.dep_user_item]

end Textpress

namespace Textpress

theorem entries_tag_of_forall2 (ext : Ext) (st : WriterState)
    (posts : List Post) (entries : List Node)
    (hfa : List.Forall₂ (fun p e => dump_post ext st p = some e) posts entries) :
    ∀ e ∈ entries, e.tag = atom_name "entry" := by
  induction hfa with
  | nil => intro e he; cases he
  | cons h _ ih =>
    intro e he
    rcases List.mem_cons.mp he with rfl | he'
    · exact dump_post_entry_tag _ _ _ _ h
    · exact ih e he'

theorem register_state_dep_tags (ext : Ext) (db : DB) :
    ∀ kv ∈ (register_state ext db).dependencies, kv.2.tag = tp_name "user" := by
  rw [register_state_eq]
  exact user_dep_entries_tag ext db.users 0

/-- C3: For every database state (satisfying referential integrity, so that
every author lookup succeeds), the export generator produces its chunks in
this fixed order: first the preamble, then one XML fragment per post of the
post query — the posts walked once (the emitted fragment list corresponds
pointwise to the query result, which is a permutation of the stored posts
in descending last-update order) — then the dependency block wrapping the
buffered dependency nodes, then the epilogue; each part appears exactly
once in the list. -/
theorem generate_single_pass_order (ext : Ext) (cfg : Config) (db : DB)
    (now : Nat) (h : ref_integrity db) :
    ∃ entries : List Node,
      generate ext cfg db now = some
        (Item.raw (preamble_string ext cfg db now) ::
          entries.map Item.node ++
          dep_block_items (register_state ext db).dependencies ++
          [Item.raw XML_EPILOG]) ∧
      List.Forall₂
        (fun p e => dump_post ext (register_state ext db) p = some e)
        (post_query db) entries ∧
      (post_query db).Perm db.posts ∧
      List.Sorted (fun a b => b.last_update ≤ a.last_update)
        (post_query db) := by
  have hperm : (post_query db).Perm db.posts := by
    simpa [post_query] using
      List.perm_insertionSort
        (fun a b : Post => b.last_update ≤ a.last_update) db.posts
  have hsome : ∀ p ∈ post_query db,
      (dump_post ext (register_state ext db) p).isSome := by
    intro p hp
    obtain ⟨id, hd⟩ :=
      dump_post_register_state ext db p (h p (hperm.mem_iff.mp hp))
    rw [hd]
    rfl
  obtain ⟨entries, hm, hfa⟩ :=
    mapM_option_some (dump_post ext (register_state ext db)) (post_query db)
      hsome
  refine ⟨entries, generate_eq_of_mapM ext cfg db now entries hm, hfa, hperm,
    ?_⟩
  simpa [post_query] using
    List.sorted_insertionSort
      (fun a b : Post => b.last_update ≤ a.last_update) db.posts

/-- Witness for `generate_single_pass_order` on a concrete two-post,
one-user database. -/
theorem generate_single_pass_order_witness :
    ∃ entries : List Node,
      generate ext0 cfg0 db0 30 = some
        (Item.raw (preamble_string ext0 cfg0 db0 30) ::
          entries.map Item.node ++
          dep_block_items (register_state ext0 db0).dependencies ++
          [Item.raw XML_EPILOG]) ∧
      List.Forall₂
        (fun p e => dump_post ext0 (register_state ext0 db0) p = some e)
        (post_query db0) entries ∧
      (post_query db0).Perm db0.posts ∧
      List.Sorted (fun a b => b.last_update ≤ a.last_update)
        (post_query db0) :=
  generate_single_pass_order ext0 cfg0 db0 30
    (by intro p hp; fin_cases hp <;> decide)

/-- C9: when the database contains no posts the export generator still
succeeds: it yields the preamble with the feed's `updated` timestamp set to
the time of the export, then the dependency block exactly when any users
exist, then the epilogue, and emits no entry fragments. -/
theorem generate_no_posts (ext : Ext) (cfg : Config) (db : DB) (now : Nat)
    (h : db.posts = []) :
    generate ext cfg db now = some
      (Item.raw (xml_preamble (escape ext.version) (escape cfg.blog_title)
          (escape cfg.blog_tagline)
          (escape (ext.build_tag_uri now "tpxa_export" "full"))
          (escape cfg.blog_url) (format_iso8601 now)) ::
        dep_block_items (register_state ext db).dependencies ++
        [Item.raw XML_EPILOG]) ∧
    ((register_state ext db).dependencies = [] ↔ db.users = []) ∧
    (∀ items, generate ext cfg db now = some items →
      items.filter Item.entry_item = []) := by
  have hq : post_query db = [] := by simp [post_query, h]
  have hpre : preamble_string ext cfg db now =
      xml_preamble (escape ext.version) (escape cfg.blog_title)
        (escape cfg.blog_tagline)
        (escape (ext.build_tag_uri now "tpxa_export" "full"))
        (escape cfg.blog_url) (format_iso8601 now) := by
    unfold preamble_string feed_last_update
    rw [hq]
  have hmap : (post_query db).mapM (dump_post ext (register_state ext db)) =
      some [] := by rw [hq]; rfl
  have hgen := generate_eq_of_mapM ext cfg db now [] hmap
  rw [hpre] at hgen
  simp only [List.map_nil, List.nil_append] at hgen
  refine ⟨hgen, ?_, ?_⟩
  · have hdeps : (register_state ext db).dependencies =
        user_dep_entries ext 0 db.users := by rw [register_state_eq]
    rw [hdeps]
    constructor
    · intro hd
      have hlen := user_dep_entries_length ext db.users 0
      rw [hd] at hlen
      exact List.length_eq_zero.mp hlen.symm
    · intro hu
      rw [hu]
      rfl
  · intro items hitems
    rw [hgen] at hitems
    cases hitems
    have := filter_entry_of_generate
      (xml_preamble (escape ext.version) (escape cfg.blog_title)
        (escape cfg.blog_tagline)
        (escape (ext.build_tag_uri now "tpxa_export" "full"))
        (escape cfg.blog_url) (format_iso8601 now))
      XML_EPILOG [] (register_state ext db).dependencies
      (by intro e he; cases he) (register_state_dep_tags ext db)
    simpa using this

/-- Witness for `generate_no_posts` on the concrete post-less database. -/
theorem generate_no_posts_witness :
    generate ext0 cfg0 db_unref 42 = some
      (Item.raw (xml_preamble (escape ext0.version) (escape cfg0.blog_title)
          (escape cfg0.blog_tagline)
          (escape (ext0.build_tag_uri 42 "tpxa_export" "full"))
          (escape cfg0.blog_url) (format_iso8601 42)) ::
        dep_block_items (register_state ext0 db_unref).dependencies ++
        [Item.raw XML_EPILOG]) ∧
    ((register_state ext0 db_unref).dependencies = [] ↔
      db_unref.users = []) ∧
    (∀ items, generate ext0 cfg0 db_unref 42 = some items →
      items.filter Item.entry_item = []) :=
  generate_no_posts ext0 cfg0 db_unref 42 rfl

end Textpress

namespace Textpress

theorem mapM_option_forall2 {α β : Type} (f : α → Option β) (l : List α)
    (ys : List β) (h : l.mapM f = some ys) :
    List.Forall₂ (fun x y => f x = some y) l ys := by
  induction l generalizing ys with
  | nil =>
    have h' : some [] = some ys := h
    cases h'
    exact .nil
  | cons x xs ih =>
    rw [List.mapM_cons] at h
    cases hfx : f x with
    | none => rw [hfx] at h; simp at h
    | some y =>
      rw [hfx] at h
      cases hxs : xs.mapM f with
      | none => rw [hxs] at h; simp at h
      | some zs =>
        rw [hxs] at h
        simp only [Option.pure_def, Option.bind_eq_bind, Option.some_bind,
                   Option.some.injEq] at h
        cases h
        exact .cons hfx (ih zs hxs)

theorem generate_structure_of_integrity (ext : Ext) (cfg : Config) (db : DB)
    (now : Nat) (h : ref_integrity db) :
    ∃ entries : List Node,
      List.Forall₂ (fun p e => dump_post ext (register_state ext db) p = some e)
        (post_query db) entries ∧
      generate ext cfg db now = some
        (Item.raw (preamble_string ext cfg db now) ::
          entries.map Item.node ++
          dep_block_items (register_state ext db).dependencies ++
          [Item.raw XML_EPILOG]) := by
  have hperm : (post_query db).Perm db.posts := by
    simpa [post_query] using
      List.perm_insertionSort
        (fun a b : Post => b.last_update ≤ a.last_update) db.posts
  have hsome : ∀ p ∈ post_query db,
      (dump_post ext (register_state ext db) p).isSome := by
    intro p hp
    obtain ⟨id, hd⟩ :=
      dump_post_register_state ext db p (h p (hperm.mem_iff.mp hp))
    rw [hd]
    rfl
  obtain ⟨entries, hm, hfa⟩ :=
    mapM_option_some (dump_post ext (register_state ext db)) (post_query db)
      hsome
  exact ⟨entries, hfa, generate_eq_of_mapM ext cfg db now entries hm⟩

/-- C1: for every database state (under referential integrity), the
generated document contains exactly one Atom entry element per post: the
entry chunks of the output correspond pointwise, in query order, to the
posts returned by the post query — each post dumped as exactly one entry
fragment — and no other chunk of the output is an entry element. -/
theorem generate_one_entry_per_post (ext : Ext) (cfg : Config) (db : DB)
    (now : Nat) (h : ref_integrity db) :
    ∃ items entries,
      generate ext cfg db now = some items ∧
      List.Forall₂ (fun p e => dump_post ext (register_state ext db) p = some e)
        (post_query db) entries ∧
      items.filter Item.entry_item = entries.map Item.node ∧
      (items.filter Item.entry_item).length = (post_query db).length := by
  obtain ⟨entries, hfa, hgen⟩ :=
    generate_structure_of_integrity ext cfg db now h
  have hflt := filter_entry_of_generate (preamble_string ext cfg db now)
    XML_EPILOG entries (register_state ext db).dependencies
    (entries_tag_of_forall2 ext (register_state ext db) (post_query db)
      entries hfa)
    (register_state_dep_tags ext db)
  refine ⟨_, entries, hgen, hfa, hflt, ?_⟩
  rw [hflt, List.length_map]
  exact hfa.length_eq.symm

/-- Witness for `generate_one_entry_per_post` on the concrete two-post
database. -/
theorem generate_one_entry_per_post_witness :
    ∃ items entries,
      generate ext0 cfg0 db0 30 = some items ∧
      List.Forall₂
        (fun p e => dump_post ext0 (register_state ext0 db0) p = some e)
        (post_query db0) entries ∧
      items.filter Item.entry_item = entries.map Item.node ∧
      (items.filter Item.entry_item).length = (post_query db0).length :=
  generate_one_entry_per_post ext0 cfg0 db0 30
    (by intro p hp; fin_cases hp <;> decide)

/-- C2 counterexample: on a database holding one user and no posts, the
generated export contains one `tp:user` dependency node although no
exported post references any user as its author — refuting the claim that
dependency nodes are emitted only for users referenced by exported
posts. -/
theorem generate_dep_node_for_unreferenced_user :
    ∃ items, generate ext0 cfg0 db_unref 0 = some items ∧
      (items.filter Item.dep_user_item).length = 1 ∧
      referenced_author_ids db_unref = [] := by
  exact ⟨_, rfl, rfl, rfl⟩

/-- C2 amended: the dependency block of the generated export contains
exactly one dependency node for each user stored in the database — whether
or not that user is referenced by an exported post: the `tp:user` chunks of
the output are exactly the buffered dependency nodes, those nodes
correspond pointwise to the stored users, and their number equals the
number of stored users. -/
theorem generate_one_dep_per_db_user (ext : Ext) (cfg : Config) (db : DB)
    (now : Nat) (items : List Item)
    (h : generate ext cfg db now = some items) :
    items.filter Item.dep_user_item =
      (register_state ext db).dependencies.map (fun kv => Item.node kv.2) ∧
    List.Forall₂ (fun (kv : String × Node) u => kv.2 = user_node ext kv.1 u)
      (register_state ext db).dependencies db.users ∧
    (items.filter Item.dep_user_item).length = db.users.length := by
  obtain ⟨entries, hm, hitems⟩ := generate_some_inv ext cfg db now items h
  have hfa := mapM_option_forall2 _ _ _ hm
  have hflt : items.filter Item.dep_user_item =
      (register_state ext db).dependencies.map (fun kv => Item.node kv.2) := by
    rw [hitems]
    exact filter_dep_user_of_generate (preamble_string ext cfg db now)
      XML_EPILOG entries (register_state ext db).dependencies
      (entries_tag_of_forall2 ext (register_state ext db) (post_query db)
        entries hfa)
      (register_state_dep_tags ext db)
  have hdeps : (register_state ext db).dependencies =
      user_dep_entries ext 0 db.users := by rw [register_state_eq]
  refine ⟨hflt, ?_, ?_⟩
  · rw [hdeps]
    exact user_dep_entries_forall2 ext db.users 0
  · rw [hflt, List.length_map, hdeps]
    exact user_dep_entries_length ext db.users 0

/-- Witness for `generate_one_dep_per_db_user` on the concrete two-post,
one-user database. -/
theorem generate_one_dep_per_db_user_witness :
    ∃ items, generate ext0 cfg0 db0 30 = some items ∧
      (items.filter Item.dep_user_item).length = db0.users.length :=
  ⟨_, rfl, (generate_one_dep_per_db_user ext0 cfg0 db0 30 _ rfl).2.2⟩

end Textpress

namespace Textpress

/-! ## The synthetic-id invariant of the `_dependencies` mapping -/

theorem reachable_keys (d : List (String × Node)) (h : ReachableDeps d) :
    d.map Prod.fst = (List.range' 1 d.length).map to_hex := by
  induction h with
  | nil => rfl
  | step d node _ ih =>
    rw [List.map_append, ih]
    have hlen : (d ++ [(to_hex (d.length + 1), node)]).length = d.length + 1 := by
      simp
    rw [hlen, List.range'_concat, List.map_append]
    simp [Nat.add_comm]

theorem reachable_fresh (d : List (String × Node)) (h : ReachableDeps d) :
    to_hex (d.length + 1) ∉ d.map Prod.fst := by
  rw [reachable_keys d h]
  intro hmem
  rcases List.mem_map.mp hmem with ⟨x, hx, hEq⟩
  have hb := List.mem_range'_1.mp hx
  have := to_hex_injective hEq
  omega

theorem reachable_keys_nodup (d : List (String × Node))
    (h : ReachableDeps d) : (d.map Prod.fst).Nodup := by
  rw [reachable_keys d h]
  exact (List.nodup_range' 1 d.length).map to_hex_injective

/-- C8: every call to `Writer.new_dependency` on a reachable `_dependencies`
mapping stores the new node under the synthetic id `to_hex (size + 1)`,
which is distinct from every id already present — so the call appends and
never overwrites a buffered node, all buffered ids stay pairwise distinct —
and the created node carries that id in its `tp:dependency` attribute. -/
theorem new_dependency_fresh (d : List (String × Node)) (tag : XName)
    (h : ReachableDeps d) :
    to_hex (d.length + 1) ∉ d.map Prod.fst ∧
    (new_dependency d tag).2 =
      d ++ [(to_hex (d.length + 1), (new_dependency d tag).1)] ∧
    ((new_dependency d tag).2.map Prod.fst).Nodup ∧
    (new_dependency d tag).1.attr (tp_name "dependency") =
      some (to_hex (d.length + 1)) := by
  refine ⟨reachable_fresh d h, rfl, ?_, rfl⟩
  have hreach : ReachableDeps (new_dependency d tag).2 :=
    ReachableDeps.step d (new_dependency d tag).1 h
  exact reachable_keys_nodup _ hreach

/-- Witness for `new_dependency_fresh` on a one-entry mapping produced by a
previous `new_dependency` call. -/
theorem new_dependency_fresh_witness :
    to_hex 2 ∉
      ([(to_hex 1,
          Node.el (tp_name "user") [(tp_name "dependency", to_hex 1)] none
            [])].map Prod.fst) ∧
    (new_dependency
        [(to_hex 1,
          Node.el (tp_name "user") [(tp_name "dependency", to_hex 1)] none [])]
        (tp_name "user")).2 =
      [(to_hex 1,
        Node.el (tp_name "user") [(tp_name "dependency", to_hex 1)] none [])] ++
        [(to_hex 2,
          (new_dependency
            [(to_hex 1,
              Node.el (tp_name "user") [(tp_name "dependency", to_hex 1)] none
                [])] (tp_name "user")).1)] ∧
    ((new_dependency
        [(to_hex 1,
          Node.el (tp_name "user") [(tp_name "dependency", to_hex 1)] none [])]
        (tp_name "user")).2.map Prod.fst).Nodup ∧
    (new_dependency
        [(to_hex 1,
          Node.el (tp_name "user") [(tp_name "dependency", to_hex 1)] none [])]
        (tp_name "user")).1.attr (tp_name "dependency") = some (to_hex 2) :=
  new_dependency_fresh
    [(to_hex 1,
      Node.el (tp_name "user") [(tp_name "dependency", to_hex 1)] none [])]
    (tp_name "user")
    (ReachableDeps.step []
      (Node.el (tp_name "user") [(tp_name "dependency", to_hex 1)] none [])
      ReachableDeps.nil)

end Textpress

namespace Textpress

/-- C6: every successfully dumped entry contains a `tp:data` extension
element whose text is the base64 encoding of the pickle serialisation of
the post's auxiliary payload — the dictionary built from the post's
`extra`, `raw_body`, `raw_intro` and `parser_data` fields. -/
theorem dump_post_aux_payload (ext : Ext) (st : WriterState) (p : Post)
    (e : Node) (h : dump_post ext st p = some e) :
    Node.el (tp_name "data") []
      (some (ext.base64 (ext.pickle_post_data
        ⟨p.extra, p.raw_body, p.raw_intro, p.parser_data⟩))) [] ∈
      e.children := by
  obtain ⟨id, rfl⟩ := dump_post_shape ext st p e h
  simp only [entry_node, Node.children, post_data_node, text_el]
  exact List.mem_append_right _ (List.mem_cons_self _ _)

/-- Witness for `dump_post_aux_payload` on the concrete post and the state
obtained by registering its author. -/
theorem dump_post_aux_payload_witness :
    Node.el (tp_name "data") []
      (some (ext0.base64 (ext0.pickle_post_data
        ⟨post0.extra, post0.raw_body, post0.raw_intro, post0.parser_data⟩)))
      [] ∈ (entry_node ext0 (to_hex 1) post0).children :=
  dump_post_aux_payload ext0 (register_state ext0 db_unref) post0
    (entry_node ext0 (to_hex 1) post0) rfl

set_option maxRecDepth 20000 in
/-- C7 (bug evidence): the XML comment body embedded in the preamble chunk
that the generator yields first contains the double hyphen that the XML 1.0
`Comment` production forbids (the underline rules of its Developer Notice
and User Notice), so a conforming XML parser rejects the generated document
on every database state — here evaluated on the empty database. -/
theorem generate_preamble_comment_double_dash :
    ∃ rest, generate ext0 cfg0 ⟨[], []⟩ 0 =
        some (Item.raw (preamble_string ext0 cfg0 ⟨[], []⟩ 0) :: rest) ∧
      contains_double_dash TPXA_COMMENT.toList = true := by
  exact ⟨_, rfl, by decide⟩

end Textpress

namespace TextpressDb

/-! ## `instrument_class` (claim C4) -/

theorem bind_all_eq (cls : String) (ms : List DatabaseManager) :
    bind_all cls ms =
      if ms.any (fun m => m.model.isSome) then .error .already_bound
      else .ok (ms.map (fun _ => ⟨some cls⟩)) := by
  induction ms with
  | nil => rfl
  | cons m ms ih =>
    cases hm : m.model with
    | some s => simp [bind_all, bind_manager, hm]
    | none =>
      simp only [bind_all, bind_manager, hm]
      rw [ih]
      by_cases h : ms.any (fun m => m.model.isSome) <;> simp [h, hm]

/-- C4 counterexample: instrumenting a class whose own dict already holds a
bound manager (for example because `db.mapper` ran twice over the same
class) raises the already-bound `RuntimeError` from `DatabaseManager.bind`
— an error of model setup that is not the attribute-collision one, refuting
the parenthetical claim that the attribute-collision `RuntimeError` is the
only error this layer raises during model setup. -/
theorem instrument_class_raises_already_bound :
    instrument_class class_rebound = .error .already_bound ∧
    SetupError.already_bound ≠ SetupError.attr_collision := by
  exact ⟨rfl, by decide⟩

/-- C4 (amended): `instrument_class` coincides with the spec-side
description `instrument_spec`: with at least one manager in the class's own
dict no default manager is created (the managers are merely bound, raising
the already-bound error when one of them is already bound to a model);
with no manager, an existing `objects` attribute raises the
attribute-collision error and otherwise a default bound manager is
installed as `objects`; these two RuntimeErrors are the only errors this
layer itself raises during model setup. -/
theorem instrument_class_meets_spec (c : PyClass) :
    instrument_class c = instrument_spec c := by
  unfold instrument_class instrument_spec
  by_cases he : (class_managers c).isEmpty
  · have hlen : ¬ (class_managers c).length ≥ 1 := by
      rw [List.isEmpty_iff] at he
      simp [he]
    rw [if_pos he, if_neg hlen]
  · have hlen : (class_managers c).length ≥ 1 := by
      cases hcm : class_managers c with
      | nil => rw [hcm] at he; exact absurd rfl he
      | cons x xs => simp
    rw [if_neg he, if_pos hlen, bind_all_eq]
    by_cases ha : (class_managers c).any (fun m => m.model.isSome)
    · rw [if_pos ha, if_pos ha]
    · rw [if_neg ha, if_neg ha]

/-! ## `init_instance` (claim C5) -/

/-- C5: a newly constructed instance of a mapped class is saved into the
active session during initialization (when no explicit `_sa_session` is
passed), unless the constructor was called with `_tp_no_save` set to a true
value, in which case the sessions are left unchanged by the
construction. -/
theorem init_instance_save (w : Sessions) (use_sa no_save : Bool)
    (inst : Nat) :
    (no_save = true → init_instance w use_sa no_save inst = w) ∧
    (no_save = false → use_sa = false →
      init_instance w use_sa no_save inst =
        { w with active := w.active ++ [inst] }) := by
  constructor
  · intro h
    simp [init_instance, h]
  · intro h1 h2
    simp [init_instance, save_impl, h1, h2]

/-- Witness for `init_instance_save`: both the suppressed and the saving
branch at concrete sessions. -/
theorem init_instance_save_witness :
    init_instance ⟨[1], []⟩ false true 2 = (⟨[1], []⟩ : Sessions) ∧
    init_instance ⟨[1], []⟩ false false 2 = (⟨[1, 2], []⟩ : Sessions) :=
  ⟨(init_instance_save ⟨[1], []⟩ false true 2).1 rfl,
   (init_instance_save ⟨[1], []⟩ false false 2).2 rfl rfl⟩

/-! ## `init_failed` (claim C10) -/

/-- C10: if initialization of a newly constructed (auto-saved) instance
fails, `init_failed` expunges the instance from its session, so the failed
construction leaves no pending instance behind: the sessions are as if the
construction had not been attempted. -/
theorem init_failed_restores (w : Sessions) (use_sa : Bool) (inst : Nat)
    (h1 : inst ∉ w.active) (h2 : inst ∉ w.passed) :
    init_failed (init_instance w use_sa false inst) inst = some w := by
  have e1 : (w.active ++ [inst]).erase inst = w.active := by
    rw [List.erase_append_right _ h1]
    simp
  have e2 : (w.passed ++ [inst]).erase inst = w.passed := by
    rw [List.erase_append_right _ h2]
    simp
  cases use_sa
  · show init_failed { w with active := w.active ++ [inst] } inst = some w
    unfold init_failed
    have hc : ((w.active ++ [inst]).contains inst) = true := by
      simp
    simp [hc, e1]
  · show init_failed { w with passed := w.passed ++ [inst] } inst = some w
    unfold init_failed
    have hc1 : (w.active.contains inst) = false := by
      simpa using h1
    have hc2 : ((w.passed ++ [inst]).contains inst) = true := by
      simp
    simp [hc1, hc2, e2, h1]

/-- Witness for `init_failed_restores` at concrete sessions. -/
theorem init_failed_restores_witness :
    init_failed (init_instance ⟨[5], []⟩ false false 7) 7 =
      some (⟨[5], []⟩ : Sessions) :=
  init_failed_restores ⟨[5], []⟩ false 7 (by decide) (by decide)

end TextpressDb
